import Mathlib

/-!
Verification development for the Settings-Management repository.

Backend (`src/unnamed/part_000`, the `app.js` Express application wired to
the test suite, which §9 of the documentation adopts as the authoritative
variant): CRUD handlers over a `settings` table.  Each handler is embedded
as a pure Lean function from its inputs and the current store to an HTTP
response and the next store.

Frontend (`src/frontend/src/JsonBuilder.jsx`): the visual-editor validation
state machine, embedded as pure transition functions on an explicit state.

JSON values are modelled by the inductive `Json` below; JSON numbers are
modelled as exact rationals (JavaScript numbers are IEEE doubles, but none
of the verified properties depend on rounding).  The database stores the
payload as `JSON.stringify(data)` and re-parses it with `JSON.parse` when
reading (`parseRow`); this serialize/parse round trip is the identity on
JSON values, so the model keeps the parsed value in the row directly.
-/

/-- Arbitrary JSON value (the duck-typed payloads of the API and the values
produced by `JSON.parse` in the frontend). -/
inductive Json where
  | null : Json
  | bool (b : Bool) : Json
  | num (q : Rat) : Json
  | str (s : String) : Json
  | arr (xs : List Json) : Json
  | obj (fs : List (String × Json)) : Json

/-! ### Model of the host `JSON.parse` builtin

A strict JSON parser over the character list of the input, following the
JSON grammar that `JSON.parse` implements: literals `null`/`true`/`false`,
strings with the single-character escapes, numbers without a leading `+` or
leading zeros, arrays and objects, with whitespace allowed between tokens.
(`\uXXXX` escapes are outside the modelled fragment; no concrete input used
below contains one.)  Recursion over nested values is bounded by a fuel
argument; `2 * length + 2` fuel suffices because every nesting step
consumes at least one character of the input. -/

def isWsChar (c : Char) : Bool :=
  c = ' ' || c = '\t' || c = '\n' || c = '\r'

def skipWs (cs : List Char) : List Char :=
  cs.dropWhile isWsChar

/-- Decode a single-character string escape (`\"`, `\\`, `\/`, `\b`, `\f`,
`\n`, `\r`, `\t`). -/
def escDecode (c : Char) : Option Char :=
  if c = '"' then some '"'
  else if c = '\\' then some '\\'
  else if c = '/' then some '/'
  else if c = 'b' then some (Char.ofNat 8)
  else if c = 'f' then some (Char.ofNat 12)
  else if c = 'n' then some '\n'
  else if c = 'r' then some '\r'
  else if c = 't' then some '\t'
  else none

/-- Parse the body of a JSON string after the opening quote; returns the
decoded characters and the remainder after the closing quote. -/
def parseStrChars : List Char → Option (List Char × List Char)
  | [] => none
  | c :: rest =>
    if c = '"' then some ([], rest)
    else if c = '\\' then
      match rest with
      | [] => none
      | e :: rest2 =>
        match escDecode e with
        | none => none
        | some d =>
          match parseStrChars rest2 with
          | none => none
          | some (acc, rem) => some (d :: acc, rem)
    else if c.toNat < 32 then none
    else
      match parseStrChars rest with
      | none => none
      | some (acc, rem) => some (c :: acc, rem)

/-- Numeric value of a list of decimal digits. -/
def digitsVal (ds : List Char) : Nat :=
  ds.foldl (fun a c => a * 10 + (c.toNat - 48)) 0

/-- Split a nonempty run of leading decimal digits off the input. -/
def parseDigits (cs : List Char) : Option (List Char × List Char) :=
  let ds := cs.takeWhile Char.isDigit
  if ds = [] then none else some (ds, cs.dropWhile Char.isDigit)

/-- Integer part of a JSON number: `0`, or a nonzero digit followed by
digits (JSON forbids leading zeros). -/
def parseIntPart : List Char → Option (List Char × List Char)
  | [] => none
  | c :: rest =>
    if c = '0' then some ([c], rest)
    else if c.isDigit then parseDigits (c :: rest)
    else none

/-- The rational `0.ip fp × 10^e` denoted by integer digits `ip`, fraction
digits `fp` and decimal exponent `e`. -/
def ratOfDigits (ip fp : List Char) (e : Int) : Rat :=
  let mant : Int := (digitsVal (ip ++ fp) : Nat)
  let ex : Int := e - (fp.length : Nat)
  if 0 ≤ ex then ((mant * 10 ^ ex.toNat : Int) : Rat)
  else mkRat mant (10 ^ (-ex).toNat)

/-- Optional exponent suffix `e`/`E` sign digits; returns the exponent and
the remainder. -/
def parseExpPart (cs : List Char) : Option (Int × List Char) :=
  match cs with
  | c :: rest =>
    if c = 'e' ∨ c = 'E' then
      let (sgn, r1) : Int × List Char :=
        match rest with
        | '+' :: t => (1, t)
        | '-' :: t => (-1, t)
        | _ => (1, rest)
      match parseDigits r1 with
      | none => none
      | some (ed, r2) => some (sgn * (digitsVal ed : Nat), r2)
    else some (0, cs)
  | [] => some (0, [])

/-- Parse a JSON number (without the optional leading `-`, handled by the
caller); returns its exact rational value and the remainder. -/
def parseJsonNumAbs (cs : List Char) : Option (Rat × List Char) :=
  match parseIntPart cs with
  | none => none
  | some (ip, r1) =>
    match r1 with
    | '.' :: r2 =>
      match parseDigits r2 with
      | none => none
      | some (fp, r3) =>
        match parseExpPart r3 with
        | none => none
        | some (e, r4) => some (ratOfDigits ip fp e, r4)
    | _ =>
      match parseExpPart r1 with
      | none => none
      | some (e, r2) => some (ratOfDigits ip [] e, r2)

mutual

/-- Parse one JSON value; `fuel` bounds the nesting recursion. -/
def parseVal : Nat → List Char → Option (Json × List Char)
  | 0, _ => none
  | fuel + 1, cs =>
    match skipWs cs with
    | [] => none
    | c :: rest =>
      if c = 'n' then
        match rest with
        | 'u' :: 'l' :: 'l' :: r => some (.null, r)
        | _ => none
      else if c = 't' then
        match rest with
        | 'r' :: 'u' :: 'e' :: r => some (.bool true, r)
        | _ => none
      else if c = 'f' then
        match rest with
        | 'a' :: 'l' :: 's' :: 'e' :: r => some (.bool false, r)
        | _ => none
      else if c = '"' then
        match parseStrChars rest with
        | none => none
        | some (scs, r) => some (.str (String.mk scs), r)
      else if c = '-' then
        match parseJsonNumAbs rest with
        | none => none
        | some (q, r) => some (.num (-q), r)
      else if c.isDigit then
        match parseJsonNumAbs (c :: rest) with
        | none => none
        | some (q, r) => some (.num q, r)
      else if c = '[' then
        match skipWs rest with
        | ']' :: r2 => some (.arr [], r2)
        | r1 =>
          match parseElems fuel r1 with
          | none => none
          | some (xs, r2) => some (.arr xs, r2)
      else if c = Char.ofNat 123 then
        match skipWs rest with
        | [] => none
        | c2 :: r2 =>
          if c2 = Char.ofNat 125 then some (.obj [], r2)
          else
            match parseMembers fuel (c2 :: r2) with
            | none => none
            | some (ms, r3) => some (.obj ms, r3)
      else none

/-- Parse the comma-separated elements of an array, up to and including the
closing bracket. -/
def parseElems : Nat → List Char → Option (List Json × List Char)
  | 0, _ => none
  | fuel + 1, cs =>
    match parseVal fuel cs with
    | none => none
    | some (v, r) =>
      match skipWs r with
      | ',' :: r2 =>
        match parseElems fuel r2 with
        | none => none
        | some (xs, r3) => some (v :: xs, r3)
      | ']' :: r2 => some ([v], r2)
      | _ => none

/-- Parse the comma-separated members of an object, up to and including the
closing brace. -/
def parseMembers : Nat → List Char → Option (List (String × Json) × List Char)
  | 0, _ => none
  | fuel + 1, cs =>
    match skipWs cs with
    | '"' :: r =>
      match parseStrChars r with
      | none => none
      | some (kcs, r2) =>
        match skipWs r2 with
        | ':' :: r3 =>
          match parseVal fuel r3 with
          | none => none
          | some (v, r4) =>
            match skipWs r4 with
            | [] => none
            | c2 :: r5 =>
              if c2 = ',' then
                match parseMembers fuel r5 with
                | none => none
                | some (ms, r6) => some ((String.mk kcs, v) :: ms, r6)
              else if c2 = Char.ofNat 125 then
                some ([(String.mk kcs, v)], r5)
              else none
        | _ => none
    | _ => none

end

/-- Model of `JSON.parse`: `none` models a thrown `SyntaxError`. -/
def parseJsonStr (s : String) : Option Json :=
  match parseVal (2 * s.length + 2) s.data with
  | none => none
  | some (j, rest) => if skipWs rest = [] then some j else none

/-! ### Model of the host `Number` builtin

`Number(str)` trims whitespace, maps the empty remainder to `0`, and
otherwise parses a signed decimal literal (digits, optional fraction,
optional exponent; a lone leading `+` or `-` is allowed, leading zeros are
allowed, `.5` and `5.` are allowed).  `none` models the result `NaN`.
Hexadecimal/octal/binary literals and `Infinity` are outside the modelled
fragment; no concrete input used below is one of those. -/

/-- Mantissa and exponent of a JavaScript decimal number literal (after
the optional sign); requires the whole remainder to be consumed. -/
def jsNumberCore (cs : List Char) : Option Rat :=
  let ip := cs.takeWhile Char.isDigit
  let r1 := cs.dropWhile Char.isDigit
  match r1 with
  | '.' :: r2 =>
    let fp := r2.takeWhile Char.isDigit
    let r3 := r2.dropWhile Char.isDigit
    if ip = [] ∧ fp = [] then none
    else
      match parseExpPart r3 with
      | none => none
      | some (e, r4) => if r4 = [] then some (ratOfDigits ip fp e) else none
  | _ =>
    if ip = [] then none
    else
      match parseExpPart r1 with
      | none => none
      | some (e, r2) => if r2 = [] then some (ratOfDigits ip [] e) else none

/-- Model of `Number(s)` on strings: `none` is `NaN`. -/
def jsNumber (s : String) : Option Rat :=
  let t := ((s.data.dropWhile isWsChar).reverse.dropWhile isWsChar).reverse
  match t with
  | [] => some 0
  | '-' :: r => (jsNumberCore r).map (fun q => -q)
  | '+' :: r => jsNumberCore r
  | _ => jsNumberCore t

/-! ### Models of `JSON.stringify`, `typeof` and `String` -/

/-- One decimal rendering of a rational: exact for integers; non-integer
values (which never arise in the verified statements) are rendered as a
fraction. -/
def numToString (q : Rat) : String :=
  if q.den = 1 then toString q.num
  else toString q.num ++ "/" ++ toString q.den

def hexDigit (n : Nat) : Char :=
  if n < 10 then Char.ofNat (48 + n) else Char.ofNat (87 + n)

/-- JSON string escaping of one character. -/
def escapeChar (c : Char) : String :=
  if c = '"' then "\\\""
  else if c = '\\' then "\\\\"
  else if c = '\n' then "\\n"
  else if c = '\r' then "\\r"
  else if c = '\t' then "\\t"
  else if c.toNat = 8 then "\\b"
  else if c.toNat = 12 then "\\f"
  else if c.toNat < 32 then
    "\\u00" ++ String.mk [hexDigit (c.toNat / 16), hexDigit (c.toNat % 16)]
  else String.singleton c

def quoteStr (s : String) : String :=
  "\"" ++ String.join (s.data.map escapeChar) ++ "\""

mutual

/-- Model of `JSON.stringify` (compact form, no indent argument). -/
def stringify : Json → String
  | .null => "null"
  | .bool b => if b then "true" else "false"
  | .num q => numToString q
  | .str s => quoteStr s
  | .arr xs => "[" ++ stringifyElems xs ++ "]"
  | .obj fs => "\x7b" ++ stringifyMembers fs ++ "\x7d"

def stringifyElems : List Json → String
  | [] => ""
  | [x] => stringify x
  | x :: y :: xs => stringify x ++ "," ++ stringifyElems (y :: xs)

def stringifyMembers : List (String × Json) → String
  | [] => ""
  | [(k, v)] => quoteStr k ++ ":" ++ stringify v
  | (k, v) :: m :: ms => quoteStr k ++ ":" ++ stringify v ++ "," ++ stringifyMembers (m :: ms)

end

/-- Model of the `typeof` operator on JSON values (`typeof null` is
`"object"` in JavaScript). -/
def jsTypeof : Json → String
  | .null => "object"
  | .bool _ => "boolean"
  | .num _ => "number"
  | .str _ => "string"
  | .arr _ => "object"
  | .obj _ => "object"

/-- Model of the `String(v)` conversion.  In the embedded code it is only
applied to values whose `typeof` is not `"object"`, so the `null`, array
and object cases are dead code; they are still given their JavaScript
values (`String([..])` joins the stringified elements with commas). -/
def jsString : Json → String
  | .null => "null"
  | .bool b => if b then "true" else "false"
  | .num q => numToString q
  | .str s => s
  | .arr xs => String.intercalate "," (xs.map stringify)
  | .obj _ => "[object Object]"

/-! ### Association-list primitives for JS objects -/

/-- Property read `obj[k]` on the association-list representation of a JS
object (objects built below never carry duplicate keys). -/
def lookupKey : List (String × Json) → String → Option Json
  | [], _ => none
  | (a, v) :: rest, k => if a = k then some v else lookupKey rest k

/-- Property assignment `obj[k] = v`: replaces the value of an existing
key in place (JS objects keep the key's first-insertion position), or
appends a new key at the end. -/
def objInsert : List (String × Json) → String → Json → List (String × Json)
  | [], k, v => [(k, v)]
  | (a, w) :: rest, k, v =>
    if a = k then (a, v) :: rest else (a, w) :: objInsert rest k v

/-! ### Backend: the Express app of `src/unnamed/part_000` (`app.js`)

The SQLite `settings` table is modelled as a list of rows in insertion
order; `id TEXT PRIMARY KEY` makes ids unique, which `createSettings`
enforces the way SQLite does (a duplicate insert throws and is caught by
the handler's `catch`, producing a 500).  Query parameters reach the
handlers after `parseInt`, so they are modelled as `Option Int` with
`none` standing for `NaN` (missing or non-numeric raw value). -/

/-- One row of the `settings` table.  `data` holds the JSON value; the
database stores `JSON.stringify` of it and `parseRow` re-parses it, which
round-trips. -/
structure SettingsRow where
  id : String
  data : Json
  created_at : String
  updated_at : String

abbrev Store := List SettingsRow

/-- An HTTP response: status code plus optional JSON body (`none` for the
body-less `204 No Content`). -/
structure HttpResp where
  status : Nat
  body : Option Json

/-- Embeds `SELECT * FROM settings WHERE id = ?` followed by `.get()`: the row
with the given primary key, if any (the table never holds two rows with
the same id). -/
def findById (i : String) : Store → Option SettingsRow
  | [] => none
  | r :: rest => if r.id = i then some r else findById i rest

/-- Embeds `UPDATE settings SET data = ?, updated_at = ? WHERE id = ?`. -/
def updateById (i : String) (body : Json) (now : String) : Store → Store
  | [] => []
  | r :: rest =>
    (if r.id = i then { r with data := body, updated_at := now } else r)
      :: updateById i body now rest

/-- Embeds `DELETE FROM settings WHERE id = ?`. -/
def removeById (i : String) : Store → Store
  | [] => []
  | r :: rest =>
    if r.id = i then removeById i rest else r :: removeById i rest

/-- Embeds `parseRow`: row to API response object. -/
def parseRowJson (r : SettingsRow) : Json :=
  .obj [("id", .str r.id), ("data", r.data),
        ("createdAt", .str r.created_at), ("updatedAt", .str r.updated_at)]

def notFoundBody : Json := .obj [("error", .str "Settings not found")]

/-- Embeds `let page = parseInt(req.query.page) || dflt`: `NaN` and `0` are falsy
in JavaScript, so both fall back to the default. -/
def jsOrDefault (dflt : Int) (q : Option Int) : Int :=
  match q with
  | none => dflt
  | some n => if n = 0 then dflt else n

/-- Effective page: default 1, then `if (page < 1) page = 1`. -/
def effPage (q : Option Int) : Int :=
  let p := jsOrDefault 1 q
  if p < 1 then 1 else p

/-- Effective limit: default 5, then `if (limit < 1) limit = 1`. -/
def effLimit (q : Option Int) : Int :=
  let l := jsOrDefault 5 q
  if l < 1 then 1 else l

/-- Embeds `Math.ceil(total / limit) || 1` for a positive integer `limit`. -/
def jsCeilOr1 (total limit : Nat) : Nat :=
  if (total + limit - 1) / limit = 0 then 1 else (total + limit - 1) / limit

/-- Embeds `ORDER BY created_at DESC` (insertion sort; `TEXT` comparison on
ISO-8601 timestamps). -/
def insertByCreated (r : SettingsRow) : Store → Store
  | [] => [r]
  | x :: xs =>
    if x.created_at ≤ r.created_at then r :: x :: xs
    else x :: insertByCreated r xs

def orderByCreatedDesc : Store → Store
  | [] => []
  | x :: xs => insertByCreated x (orderByCreatedDesc xs)

structure Pagination where
  page : Int
  limit : Int
  total : Nat
  totalPages : Nat

structure ListResponse where
  data : List SettingsRow
  pagination : Pagination

/-- Embeds `GET /settings` (paginated list): parse/default/clamp `page` and
`limit`, compute `offset = (page-1)*limit`, count all rows, fetch the page
`ORDER BY created_at DESC LIMIT limit OFFSET offset`, and answer with the
rows plus the pagination block built from the effective values. -/
def listSettings (qpage qlimit : Option Int) (store : Store) : ListResponse :=
  let page := effPage qpage
  let limit := effLimit qlimit
  let offset := ((page - 1) * limit).toNat
  let total := store.length
  let rows := ((orderByCreatedDesc store).drop offset).take limit.toNat
  { data := rows,
    pagination :=
      { page := page, limit := limit, total := total,
        totalPages := jsCeilOr1 total limit.toNat } }

/-- Embeds `POST /settings`: insert `(id, data, now, now)` and answer 201 with the
new record.  A duplicate id makes the `INSERT` throw, which the handler's
`catch` turns into a 500 (with `uuidv4` ids this branch is unreachable). -/
def createSettings (i : String) (body : Json) (now : String) (store : Store) :
    HttpResp × Store :=
  match findById i store with
  | some _ =>
    ({ status := 500, body := some (.obj [("error", .str "Failed to create settings")]) },
     store)
  | none =>
    ({ status := 201,
       body := some (.obj [("id", .str i), ("data", body),
                           ("createdAt", .str now), ("updatedAt", .str now)]) },
     store ++ [{ id := i, data := body, created_at := now, updated_at := now }])

/-- Embeds `GET /settings/:id`: look the row up; 404 with a stable error body when
absent, 200 with the full record when present. -/
def readSettings (i : String) (store : Store) : HttpResp :=
  match findById i store with
  | none => { status := 404, body := some notFoundBody }
  | some r => { status := 200, body := some (parseRowJson r) }

/-- Embeds `PUT /settings/:id`: check existence (`SELECT id ... WHERE id = ?`);
404 without touching the store when absent, otherwise overwrite `data` and
`updated_at` of that row (`UPDATE settings SET data = ?, updated_at = ?
WHERE id = ?`) and answer 200 with `{id, data, updatedAt}`. -/
def updateSettings (i : String) (body : Json) (now : String) (store : Store) :
    HttpResp × Store :=
  match findById i store with
  | none => ({ status := 404, body := some notFoundBody }, store)
  | some _ =>
    ({ status := 200,
       body := some (.obj [("id", .str i), ("data", body), ("updatedAt", .str now)]) },
     updateById i body now store)

/-- Embeds `DELETE /settings/:id`: unconditionally `DELETE ... WHERE id = ?` and
answer 204 with no body, whether or not a row existed. -/
def deleteSettings (i : String) (store : Store) : HttpResp × Store :=
  ({ status := 204, body := none }, removeById i store)

/-! ### Frontend: the `JsonBuilder` visual editor (`JsonBuilder.jsx`)

A field entry carries a stable numeric id, a key, a raw text value and a
declared type tag (the `<select>` offers `"string"`, `"number"`,
`"boolean"`, `"object"`; the tag is kept as a string exactly as in the
component state).  The component state is the `fields` array plus the
`nextId` counter; the two caller-visible outputs — the last value passed
to `onValidationChange` and the last object passed to `onChange` — are
modelled as two extra state components (`reported`, `lastEmitted`), both
`none` before the first transition since `updateParent` only runs on
transitions, never at initialization.  `lastEmitted` holds the emitted
object itself; the component serializes it with `JSON.stringify(obj,
null, 2)` before handing it over, which adds no information. -/

structure FieldEntry where
  id : Nat
  key : String
  value : String
  type : String
deriving DecidableEq

/-- Embeds `isValidJson`: the empty string is valid (falsy short-circuit),
otherwise `JSON.parse` must succeed. -/
def isValidJson (s : String) : Bool :=
  if s == "" then true else (parseJsonStr s).isSome

/-- The per-entry test inside `checkErrors`: a `number`-typed entry with a
non-empty raw value that is `NaN` under `Number`, or an `object`-typed
entry with a non-empty raw value that fails `isValidJson`. -/
def fieldHasError (f : FieldEntry) : Bool :=
  if f.type == "number" && !(f.value == "") && (jsNumber f.value).isNone then true
  else if f.type == "object" && !(f.value == "") && !(isValidJson f.value) then true
  else false

/-- Embeds `checkErrors`: `fieldsToCheck.some(...)` over the per-entry test. -/
def checkErrors (fieldsToCheck : List FieldEntry) : Bool :=
  fieldsToCheck.any fieldHasError

/-- Value conversion inside `updateParent`: `number` → `Number(v) || 0`
(`NaN` and `0` are falsy, so both give `0`); `boolean` → `v === 'true'`;
`object` → `JSON.parse(v)` with `{}` on a caught parse error; any other
tag keeps the raw text as a JSON string. -/
def convertVal (f : FieldEntry) : Json :=
  if f.type == "number" then
    match jsNumber f.value with
    | none => .num 0
    | some q => .num q
  else if f.type == "boolean" then .bool (f.value == "true")
  else if f.type == "object" then
    match parseJsonStr f.value with
    | some j => j
    | none => .obj []
  else .str f.value

/-- The `newFields.forEach` loop of `updateParent`: starting from `{}`,
assign `obj[field.key] = converted value` for each entry whose trimmed key
is non-empty (`if (field.key.trim())`). -/
def buildEntries (newFields : List FieldEntry) : List (String × Json) :=
  newFields.foldl
    (fun obj f =>
      if f.key.trim = "" then obj else objInsert obj f.key (convertVal f))
    []

def buildObj (newFields : List FieldEntry) : Json :=
  .obj (buildEntries newFields)

/-- Editor state: the `fields` and `nextId` React state plus the two
caller-visible outputs. -/
structure EditorState where
  fields : List FieldEntry
  nextId : Nat
  reported : Option Bool
  lastEmitted : Option Json

/-- Embeds `updateParent(newFields)` combined with the preceding
`setFields(newFields)`: always report `!hasError`; emit the built object
only when there is no error, otherwise leave the last emitted value
unchanged. -/
def updateParent (s : EditorState) (newFields : List FieldEntry) : EditorState :=
  if checkErrors newFields then
    { s with fields := newFields, reported := some false }
  else
    { s with fields := newFields, reported := some true,
             lastEmitted := some (buildObj newFields) }

/-- Embeds `addField`: append a fresh empty `string`-typed entry carrying the
current `nextId`, increment `nextId`, re-validate. -/
def addField (s : EditorState) : EditorState :=
  updateParent { s with nextId := s.nextId + 1 }
    (s.fields ++ [{ id := s.nextId, key := "", value := "", type := "string" }])

/-- Embeds `removeField(id)`: drop the entry with that id, re-validate. -/
def removeField (i : Nat) (s : EditorState) : EditorState :=
  updateParent s (s.fields.filter (fun f => !(f.id == i)))

/-- The three editable properties of an entry. -/
inductive FieldProp where
  | key
  | value
  | type

/-- Embeds the computed-property record update of `updateField`. -/
def setProp (f : FieldEntry) : FieldProp → String → FieldEntry
  | .key, v => { f with key := v }
  | .value, v => { f with value := v }
  | .type, v => { f with type := v }

/-- Embeds `updateField(id, property, newValue)`: rewrite the named property of
the entry with that id, re-validate. -/
def updateField (i : Nat) (p : FieldProp) (v : String) (s : EditorState) :
    EditorState :=
  updateParent s (s.fields.map (fun f => if f.id == i then setProp f p v else f))

/-- Embeds the `parseInitialFields` per-entry construction: `Object.entries(parsed)
.map(([key, val], index) => ...)` builds one field per property, value
re-serialized for `typeof val === 'object'` and `String(val)` otherwise,
type tag from `typeof val`. -/
def mkInitField (i : Nat) (k : String) (v : Json) : FieldEntry :=
  { id := i, key := k,
    value := if jsTypeof v == "object" then stringify v else jsString v,
    type := if jsTypeof v == "object" then "object"
            else if jsTypeof v == "number" then "number"
            else if jsTypeof v == "boolean" then "boolean"
            else "string" }

/-- The `.map(..., index)` over `Object.entries`, with explicit running
index. -/
def fieldsOfEntries : Nat → List (String × Json) → List FieldEntry
  | _, [] => []
  | i, (k, v) :: rest => mkInitField i k v :: fieldsOfEntries (i + 1) rest

/-- Model of `Object.entries`: `none` models the `TypeError` thrown on
`null`; arrays and strings enumerate their indices, other primitives have
no own properties. -/
def entriesIdx : Nat → List Json → List (String × Json)
  | _, [] => []
  | i, v :: rest => (toString i, v) :: entriesIdx (i + 1) rest

def jsObjectEntries : Json → Option (List (String × Json))
  | .null => none
  | .obj fs => some fs
  | .arr xs => some (entriesIdx 0 xs)
  | .str s => some (entriesIdx 0 (s.data.map (fun c => .str (String.singleton c))))
  | .num _ => some []
  | .bool _ => some []

/-- The placeholder entry used when parsing the initial value fails. -/
def defaultFields : List FieldEntry :=
  [{ id := 0, key := "key", value := "value", type := "string" }]

/-- Embeds `parseInitialFields`: the whole body runs inside a `try`, so
both a parse failure and the `TypeError` of `Object.entries(null)` land in
the `catch` and give the default placeholder field. -/
def parseInitialFields (value : String) : List FieldEntry :=
  match parseJsonStr value with
  | none => defaultFields
  | some j =>
    match jsObjectEntries j with
    | none => defaultFields
    | some entries => fieldsOfEntries 0 entries

/-- Component mount: `useState(parseInitialFields)` and
`useState(fields.length)`; the parent has not been notified yet. -/
def initState (value : String) : EditorState :=
  { fields := parseInitialFields value,
    nextId := (parseInitialFields value).length,
    reported := none,
    lastEmitted := none }

/-- One editor transition (the three user-reachable `setFields` +
`updateParent` paths). -/
inductive Tr : EditorState → EditorState → Prop where
  | add (s : EditorState) : Tr s (addField s)
  | remove (s : EditorState) (i : Nat) : Tr s (removeField i s)
  | update (s : EditorState) (i : Nat) (p : FieldProp) (v : String) :
      Tr s (updateField i p v s)

/-- States reachable from the freshly mounted editor. -/
def Reachable (value : String) (s : EditorState) : Prop :=
  Relation.ReflTransGen Tr (initState value) s

/-- The entry whose converted value the spec predicts under a key `k`:
the last entry with key exactly `k` among the entries whose trimmed key is
non-empty. -/
def lastWins (k : String) : List FieldEntry → Option FieldEntry
  | [] => none
  | f :: fs =>
    match lastWins k fs with
    | some g => some g
    | none => if f.key = k ∧ f.key.trim ≠ "" then some f else none

/-- Type tag the amended initialization claim predicts from the runtime
value: `object`/`array`/`null` (all `typeof` `"object"`) get the `object`
tag, numbers `number`, booleans `boolean`, strings `string`. -/
def specTypeTag : Json → String
  | .obj _ => "object"
  | .arr _ => "object"
  | .null => "object"
  | .num _ => "number"
  | .bool _ => "boolean"
  | .str _ => "string"

/-- Raw text the amended initialization claim predicts: re-serialized text
for the `object`-tagged values, the printed primitive otherwise. -/
def specInitValue : Json → String
  | .obj fs => stringify (.obj fs)
  | .arr xs => stringify (.arr xs)
  | .null => "null"
  | .num q => numToString q
  | .bool b => if b then "true" else "false"
  | .str s => s

/-! ### Helper lemmas -/

lemma one_le_effPage (q : Option Int) : 1 ≤ effPage q := by
  rcases q with _ | n
  · decide
  · by_cases h : n = 0
    · simp [effPage, jsOrDefault, h]
    · simp only [effPage, jsOrDefault, if_neg h]
      split <;> omega

lemma one_le_effLimit (q : Option Int) : 1 ≤ effLimit q := by
  rcases q with _ | n
  · decide
  · by_cases h : n = 0
    · simp [effLimit, jsOrDefault, h]
    · simp only [effLimit, jsOrDefault, if_neg h]
      split <;> omega

lemma jsCeilOr1_eq_max (t l : Nat) : jsCeilOr1 t l = max ((t + l - 1) / l) 1 := by
  unfold jsCeilOr1
  generalize (t + l - 1) / l = c
  split <;> omega

lemma findById_removeById (i : String) (l : Store) :
    findById i (removeById i l) = none := by
  induction l with
  | nil => rfl
  | cons r rest ih => by_cases h : r.id = i <;> simp [removeById, findById, h, ih]

lemma removeById_idem (i : String) (l : Store) :
    removeById i (removeById i l) = removeById i l := by
  induction l with
  | nil => rfl
  | cons r rest ih => by_cases h : r.id = i <;> simp [removeById, h, ih]

lemma findById_append_of_none (i : String) (l₁ l₂ : Store)
    (h : findById i l₁ = none) : findById i (l₁ ++ l₂) = findById i l₂ := by
  induction l₁ with
  | nil => rfl
  | cons r rest ih =>
    by_cases hr : r.id = i
    · simp [findById, hr] at h
    · simp only [findById, if_neg hr] at h
      simp [findById, hr, ih h]

lemma findById_updateById (i : String) (body : Json) (now : String) (l : Store) :
    findById i (updateById i body now l)
      = (findById i l).map (fun r => { r with data := body, updated_at := now }) := by
  induction l with
  | nil => rfl
  | cons r rest ih =>
    by_cases h : r.id = i
    · simp [updateById, findById, h]
    · simp [updateById, findById, h, ih]

lemma findById_id (i : String) (l : Store) (r : SettingsRow)
    (h : findById i l = some r) : r.id = i := by
  induction l with
  | nil => simp [findById] at h
  | cons x rest ih =>
    by_cases hx : x.id = i
    · simp only [findById, if_pos hx, Option.some.injEq] at h
      rw [← h]; exact hx
    · simp only [findById, if_neg hx] at h
      exact ih h

/-! ### Claim theorems: backend -/

/-- C1 (counterexample): the claim says a parsed `limit` of zero yields an
effective limit of 1, but `parseInt(q) || 5` treats `0` as falsy, so a
parsed limit of `0` falls back to the default `5`, and the pagination
block reports `5`, not `1`. -/
theorem c1_counterexample :
    (listSettings (some 1) (some 0) ([] : Store)).pagination.limit = 5 ∧
    ¬ (listSettings (some 1) (some 0) ([] : Store)).pagination.limit = 1 := by
  constructor <;> decide

/-- C1 (amended): after parsing, a negative parsed `page` or `limit` is
clamped to 1, and a parsed value of `0` triggers the `||`-default (1 for
`page` — coinciding with the clamp — and 5 for `limit`, the one point
where the original claim fails); the effective values are always at least
1, and the pagination block reflects the effective values, not the raw
query values. -/
theorem c1_clamped_pagination (qpage qlimit : Option Int) (store : Store)
    (n m : Int) (hn : n ≤ 0) (hm : m < 0) :
    (listSettings qpage qlimit store).pagination.page = effPage qpage
  ∧ (listSettings qpage qlimit store).pagination.limit = effLimit qlimit
  ∧ effPage (some n) = 1
  ∧ effLimit (some m) = 1
  ∧ effLimit (some 0) = 5
  ∧ 1 ≤ effPage qpage
  ∧ 1 ≤ effLimit qlimit := by
  refine ⟨rfl, rfl, ?_, ?_, by decide, one_le_effPage qpage, one_le_effLimit qlimit⟩
  · by_cases h : n = 0
    · simp [effPage, jsOrDefault, h]
    · simp [effPage, jsOrDefault, h, show n < 1 by omega]
  · have h : ¬ m = 0 := by omega
    simp [effLimit, jsOrDefault, h, show m < 1 by omega]

/-- C1 witness: concrete instantiation of the amended clamping claim. -/
theorem c1_clamped_pagination_witness :
    (listSettings (some 3) (some 7) ([] : Store)).pagination.page = effPage (some 3)
  ∧ (listSettings (some 3) (some 7) ([] : Store)).pagination.limit = effLimit (some 7)
  ∧ effPage (some 0) = 1
  ∧ effLimit (some (-1)) = 1
  ∧ effLimit (some 0) = 5
  ∧ 1 ≤ effPage (some 3)
  ∧ 1 ≤ effLimit (some 7) :=
  c1_clamped_pagination (some 3) (some 7) [] 0 (-1) (by decide) (by decide)

/-- C2: for every store the List operation returns `totalPages =
ceil(total/limit)` floored to a minimum of 1 (`Math.ceil(total/limit) ||
1`), and listing the empty store returns an empty data array, `total = 0`
and `totalPages = 1`. -/
theorem c2_totalPages (qpage qlimit : Option Int) (store : Store) :
    (listSettings qpage qlimit store).pagination.totalPages
      = max ((store.length + (effLimit qlimit).toNat - 1) / (effLimit qlimit).toNat) 1
  ∧ (listSettings qpage qlimit ([] : Store)).data = []
  ∧ (listSettings qpage qlimit ([] : Store)).pagination.total = 0
  ∧ (listSettings qpage qlimit ([] : Store)).pagination.totalPages = 1 := by
  refine ⟨jsCeilOr1_eq_max _ _, ?_, rfl, ?_⟩
  · show (((orderByCreatedDesc []).drop ((effPage qpage - 1) * effLimit qlimit).toNat).take
        (effLimit qlimit).toNat) = []
    simp [orderByCreatedDesc]
  · show jsCeilOr1 0 (effLimit qlimit).toNat = 1
    have h1 : 1 ≤ (effLimit qlimit).toNat := by
      have := one_le_effLimit qlimit; omega
    unfold jsCeilOr1
    have h2 : (0 + (effLimit qlimit).toNat - 1) / (effLimit qlimit).toNat = 0 :=
      Nat.div_eq_of_lt (by omega)
    rw [if_pos h2]

/-- C3: updating an existing record replaces `data` wholesale — a
subsequent read returns exactly the new payload (no key of the old payload
survives), with `createdAt` unchanged from the original row, `updatedAt`
overwritten to the update time, and the id preserved. -/
theorem c3_update_then_read (i : String) (p2 : Json) (now : String) (store : Store)
    (r : SettingsRow) (h : findById i store = some r) :
    (updateSettings i p2 now store).1.status = 200
  ∧ readSettings i (updateSettings i p2 now store).2
      = { status := 200,
          body := some (.obj [("id", .str i), ("data", p2),
                              ("createdAt", .str r.created_at), ("updatedAt", .str now)]) } := by
  have hri : r.id = i := findById_id i store r h
  constructor
  · unfold updateSettings
    rw [h]
  · unfold updateSettings
    rw [h]
    show readSettings i (updateById i p2 now store) = _
    unfold readSettings
    rw [findById_updateById, h]
    simp [parseRowJson, hri]

/-- C3 witness: a concrete one-row store. -/
theorem c3_update_then_read_witness :
    (updateSettings "a" (Json.str "v2") "t1"
        [{ id := "a", data := Json.str "v1", created_at := "t0", updated_at := "t0" }]).1.status = 200
  ∧ readSettings "a" (updateSettings "a" (Json.str "v2") "t1"
        [{ id := "a", data := Json.str "v1", created_at := "t0", updated_at := "t0" }]).2
      = { status := 200,
          body := some (.obj [("id", .str "a"), ("data", Json.str "v2"),
                              ("createdAt", .str "t0"), ("updatedAt", .str "t1")]) } :=
  c3_update_then_read "a" (Json.str "v2") "t1"
    [{ id := "a", data := Json.str "v1", created_at := "t0", updated_at := "t0" }]
    { id := "a", data := Json.str "v1", created_at := "t0", updated_at := "t0" } rfl

/-- C4: updating an id with no record fails with 404 and the body
`error: "Settings not found"`, and the store is left entirely unchanged
(no record created, no record modified). -/
theorem c4_update_missing_404 (i : String) (p : Json) (now : String) (store : Store)
    (h : findById i store = none) :
    (updateSettings i p now store).1
        = { status := 404, body := some (.obj [("error", .str "Settings not found")]) }
  ∧ (updateSettings i p now store).2 = store := by
  unfold updateSettings
  rw [h]
  exact ⟨rfl, rfl⟩

/-- C4 witness: updating in the empty store. -/
theorem c4_update_missing_404_witness :
    (updateSettings "x" Json.null "t1" ([] : Store)).1
        = { status := 404, body := some (.obj [("error", .str "Settings not found")]) }
  ∧ (updateSettings "x" Json.null "t1" ([] : Store)).2 = [] :=
  c4_update_missing_404 "x" Json.null "t1" [] rfl

/-- C5: delete always reports 204 with an empty body whether or not the id
exists, a subsequent read of that id is a 404 NotFound, and a repeated
delete is an indistinguishable success (same response, same store). -/
theorem c5_delete_idempotent (i : String) (store : Store) :
    (deleteSettings i store).1.status = 204
  ∧ (deleteSettings i store).1.body = none
  ∧ readSettings i (deleteSettings i store).2
      = { status := 404, body := some (.obj [("error", .str "Settings not found")]) }
  ∧ deleteSettings i (deleteSettings i store).2 = deleteSettings i store := by
  refine ⟨rfl, rfl, ?_, ?_⟩
  · show readSettings i (removeById i store) = _
    unfold readSettings
    rw [findById_removeById]
    rfl
  · show deleteSettings i (removeById i store) = _
    unfold deleteSettings
    rw [removeById_idem]

/-- C6: creating with a fresh id answers 201 with `createdAt = updatedAt`,
and a subsequent read of the returned id answers 200 with data equal to
the created payload. -/
theorem c6_create_then_read (i : String) (p : Json) (now : String) (store : Store)
    (h : findById i store = none) :
    (createSettings i p now store).1.status = 201
  ∧ (createSettings i p now store).1.body
      = some (.obj [("id", .str i), ("data", p),
                    ("createdAt", .str now), ("updatedAt", .str now)])
  ∧ readSettings i (createSettings i p now store).2
      = { status := 200,
          body := some (.obj [("id", .str i), ("data", p),
                              ("createdAt", .str now), ("updatedAt", .str now)]) } := by
  unfold createSettings
  rw [h]
  refine ⟨rfl, rfl, ?_⟩
  show readSettings i
      (store ++ [{ id := i, data := p, created_at := now, updated_at := now }]) = _
  unfold readSettings
  rw [findById_append_of_none i store _ h]
  simp [findById, parseRowJson]

/-- C6 witness: creating in the empty store. -/
theorem c6_create_then_read_witness :
    (createSettings "a" (Json.bool true) "t0" ([] : Store)).1.status = 201
  ∧ (createSettings "a" (Json.bool true) "t0" ([] : Store)).1.body
      = some (.obj [("id", .str "a"), ("data", Json.bool true),
                    ("createdAt", .str "t0"), ("updatedAt", .str "t0")])
  ∧ readSettings "a" (createSettings "a" (Json.bool true) "t0" ([] : Store)).2
      = { status := 200,
          body := some (.obj [("id", .str "a"), ("data", Json.bool true),
                              ("createdAt", .str "t0"), ("updatedAt", .str "t0")]) } :=
  c6_create_then_read "a" (Json.bool true) "t0" [] rfl

/-! ### Frontend helper lemmas -/

lemma updateParent_fields (st : EditorState) (nf : List FieldEntry) :
    (updateParent st nf).fields = nf := by
  unfold updateParent
  split <;> rfl

lemma updateParent_nextId (st : EditorState) (nf : List FieldEntry) :
    (updateParent st nf).nextId = st.nextId := by
  unfold updateParent
  split <;> rfl

lemma updateParent_reported (st : EditorState) (nf : List FieldEntry) :
    (updateParent st nf).reported = some (!(checkErrors nf)) := by
  unfold updateParent
  cases hc : checkErrors nf <;> simp [hc]

lemma updateParent_lastEmitted (st : EditorState) (nf : List FieldEntry) :
    (updateParent st nf).lastEmitted
      = (if checkErrors nf then st.lastEmitted else some (buildObj nf)) := by
  unfold updateParent
  cases hc : checkErrors nf <;> simp [hc]

lemma lookupKey_objInsert (acc : List (String × Json)) (k k' : String) (v : Json) :
    lookupKey (objInsert acc k v) k' = if k = k' then some v else lookupKey acc k' := by
  induction acc with
  | nil => simp [objInsert, lookupKey]
  | cons p rest ih =>
    obtain ⟨a, w⟩ := p
    by_cases h : a = k
    · subst h
      by_cases h2 : a = k' <;> simp [objInsert, lookupKey, h2]
    · by_cases h2 : a = k'
      · have h3 : ¬ k = k' := fun hh => h (h2.trans hh.symm)
        have h4 : ¬ k' = k := fun hh => h3 hh.symm
        simp [objInsert, lookupKey, h, h2, h3, h4]
      · simp [objInsert, lookupKey, h, h2, ih]

lemma lookupKey_build_foldl (fs : List FieldEntry) (acc : List (String × Json)) (k : String) :
    lookupKey
        (fs.foldl
          (fun obj f =>
            if f.key.trim = "" then obj else objInsert obj f.key (convertVal f))
          acc) k
      = (match lastWins k fs with
         | some g => some (convertVal g)
         | none => lookupKey acc k) := by
  induction fs generalizing acc with
  | nil => rfl
  | cons f fs ih =>
    simp only [List.foldl_cons, lastWins, ih]
    cases hlw : lastWins k fs with
    | some g => rfl
    | none =>
      by_cases ht : f.key.trim = ""
      · simp [ht]
      · by_cases hk : f.key = k
        · have ht2 : ¬ k.trim = "" := by rw [← hk]; exact ht
          simp [ht, ht2, hk, lookupKey_objInsert]
        · simp [ht, hk, lookupKey_objInsert]

/-! ### Claim theorems: frontend -/

/-- C7: after every editor transition the machine reports the aggregate
validity flag; the emitted object changes only when the aggregate is valid
(otherwise the previously emitted value is kept), and the built object
iterates entries in order skipping empty/all-whitespace keys (no entries
emit `{}`), with the value under any key being the converted value of the
last entry carrying that key. -/
theorem c7_commit_policy (s s' : EditorState) (h : Tr s s')
    (fs : List FieldEntry) (k : String) :
    s'.reported = some (!(checkErrors s'.fields))
  ∧ s'.lastEmitted
      = (if checkErrors s'.fields then s.lastEmitted else some (buildObj s'.fields))
  ∧ buildObj ([] : List FieldEntry) = Json.obj []
  ∧ lookupKey (buildEntries fs) k = Option.map convertVal (lastWins k fs) := by
  refine ⟨?_, ?_, rfl, ?_⟩
  · cases h with
    | add => simp [addField, updateParent_reported, updateParent_fields]
    | remove i => simp [removeField, updateParent_reported, updateParent_fields]
    | update i p v => simp [updateField, updateParent_reported, updateParent_fields]
  · cases h with
    | add =>
      simp [addField, updateParent_lastEmitted, updateParent_fields]
    | remove i =>
      simp [removeField, updateParent_lastEmitted, updateParent_fields]
    | update i p v =>
      simp [updateField, updateParent_lastEmitted, updateParent_fields]
  · show lookupKey (buildEntries fs) k = _
    unfold buildEntries
    rw [lookupKey_build_foldl]
    cases lastWins k fs <;> rfl

/-- C7 witness: the add-field transition from the editor mounted on the
empty object, and a duplicate-key entry list. -/
theorem c7_commit_policy_witness :
    (addField (initState "\x7b\x7d")).reported
        = some (!(checkErrors (addField (initState "\x7b\x7d")).fields))
  ∧ (addField (initState "\x7b\x7d")).lastEmitted
      = (if checkErrors (addField (initState "\x7b\x7d")).fields
         then (initState "\x7b\x7d").lastEmitted
         else some (buildObj (addField (initState "\x7b\x7d")).fields))
  ∧ buildObj ([] : List FieldEntry) = Json.obj []
  ∧ lookupKey
        (buildEntries
          [{ id := 0, key := "a", value := "x", type := "string" },
           { id := 1, key := "a", value := "y", type := "string" }]) "a"
      = Option.map convertVal
          (lastWins "a"
            [{ id := 0, key := "a", value := "x", type := "string" },
             { id := 1, key := "a", value := "y", type := "string" }]) :=
  c7_commit_policy (initState "\x7b\x7d") (addField (initState "\x7b\x7d"))
    (Tr.add (initState "\x7b\x7d"))
    [{ id := 0, key := "a", value := "x", type := "string" },
     { id := 1, key := "a", value := "y", type := "string" }] "a"

lemma isValidJson_eq_false_iff (s : String) :
    isValidJson s = false ↔ (s ≠ "" ∧ parseJsonStr s = none) := by
  by_cases h : s = ""
  · simp [isValidJson, h]
  · cases hp : parseJsonStr s <;> simp [isValidJson, h, hp]

/-- C8: an entry typed `number` is in error iff its raw value is non-empty
and is `NaN` under `Number`; an entry typed `object` is in error iff its
raw value is non-empty and `JSON.parse` fails on it; entries typed
`string` or `boolean` are never in error; the set is valid iff no entry is
in error. -/
theorem c8_per_entry_validation (f : FieldEntry) (fs : List FieldEntry) :
    (fieldHasError f = true
       ↔ ((f.type = "number" ∧ f.value ≠ "" ∧ jsNumber f.value = none)
        ∨ (f.type = "object" ∧ f.value ≠ "" ∧ parseJsonStr f.value = none)))
  ∧ fieldHasError { f with type := "string" } = false
  ∧ fieldHasError { f with type := "boolean" } = false
  ∧ (checkErrors fs = false ↔ ∀ g ∈ fs, fieldHasError g = false) := by
  refine ⟨?_, ?_, ?_, ?_⟩
  · unfold fieldHasError
    by_cases hn : f.type = "number" <;> by_cases hv : f.value = "" <;>
      cases hj : jsNumber f.value <;>
      by_cases ho : f.type = "object" <;>
      simp_all [isValidJson_eq_false_iff]
  · simp [fieldHasError]
  · simp [fieldHasError]
  · simp [checkErrors, List.any_eq_false]

lemma fieldsOfEntries_key (n : Nat) (l : List (String × Json)) :
    (fieldsOfEntries n l).map FieldEntry.key = l.map Prod.fst := by
  induction l generalizing n with
  | nil => rfl
  | cons p rest ih =>
    obtain ⟨k, v⟩ := p
    simp [fieldsOfEntries, mkInitField, ih]

lemma fieldsOfEntries_id (n : Nat) (l : List (String × Json)) :
    (fieldsOfEntries n l).map FieldEntry.id = List.range' n l.length := by
  induction l generalizing n with
  | nil => rfl
  | cons p rest ih =>
    obtain ⟨k, v⟩ := p
    simp [fieldsOfEntries, mkInitField, ih, List.range'_succ]

lemma fieldsOfEntries_length (n : Nat) (l : List (String × Json)) :
    (fieldsOfEntries n l).length = l.length := by
  induction l generalizing n with
  | nil => rfl
  | cons p rest ih =>
    obtain ⟨k, v⟩ := p
    simp [fieldsOfEntries, ih]

/-- C9 (counterexample): on the starting text whose single property has
value `null`, the claim predicts a `string`-tagged entry, but `typeof
null` is `"object"` in JavaScript, so the entry is tagged `object` (with
the value re-serialized to the text `null`). -/
theorem c9_counterexample :
    parseInitialFields "\x7b\"a\":null\x7d"
        = [{ id := 0, key := "a", value := "null", type := "object" }]
  ∧ ¬ parseInitialFields "\x7b\"a\":null\x7d"
        = [{ id := 0, key := "a", value := "null", type := "string" }] := by
  constructor
  · rfl
  · decide

/-- C9 (amended): if the starting text parses as an object, each top-level
property becomes exactly one field entry in encounter order (ids 0, 1, …,
keys in entry order), with the type tag inferred from the runtime value —
object, array **and null** values (all of `typeof` `"object"`) get the
`object` tag with the value re-serialized as text, numbers get `number`,
booleans get `boolean`, and everything else gets `string`; if the text
fails to parse, the editor initializes with exactly one placeholder entry
(key `key`, value `value`, type `string`). -/
theorem c9_initialization (value w : String) (entries : List (String × Json))
    (i : Nat) (k : String) (v : Json)
    (h1 : parseJsonStr value = some (Json.obj entries))
    (h2 : parseJsonStr w = none) :
    parseInitialFields value = fieldsOfEntries 0 entries
  ∧ (fieldsOfEntries 0 entries).map FieldEntry.key = entries.map Prod.fst
  ∧ (fieldsOfEntries 0 entries).map FieldEntry.id = List.range entries.length
  ∧ mkInitField i k v
      = { id := i, key := k, value := specInitValue v, type := specTypeTag v }
  ∧ parseInitialFields w
      = [{ id := 0, key := "key", value := "value", type := "string" }] := by
  refine ⟨?_, fieldsOfEntries_key 0 entries, ?_, ?_, ?_⟩
  · unfold parseInitialFields
    rw [h1]
    rfl
  · rw [fieldsOfEntries_id, List.range_eq_range']
  · cases v <;>
      simp [mkInitField, specInitValue, specTypeTag, jsTypeof, jsString, stringify]
  · unfold parseInitialFields
    rw [h2]
    rfl

/-- C9 witness: a parsable object with one boolean property, and an
unparsable starting text. -/
theorem c9_initialization_witness :
    parseInitialFields "\x7b\"a\":true\x7d" = fieldsOfEntries 0 [("a", Json.bool true)]
  ∧ (fieldsOfEntries 0 [("a", Json.bool true)]).map FieldEntry.key
      = [("a", Json.bool true)].map Prod.fst
  ∧ (fieldsOfEntries 0 [("a", Json.bool true)]).map FieldEntry.id
      = List.range [("a", Json.bool true)].length
  ∧ mkInitField 2 "b" (Json.str "z")
      = { id := 2, key := "b", value := specInitValue (Json.str "z"),
          type := specTypeTag (Json.str "z") }
  ∧ parseInitialFields "key"
      = [{ id := 0, key := "key", value := "value", type := "string" }] :=
  c9_initialization "\x7b\"a\":true\x7d" "key" [("a", Json.bool true)] 2 "b"
    (Json.str "z") rfl rfl

lemma setProp_id (f : FieldEntry) (p : FieldProp) (v : String) :
    (setProp f p v).id = f.id := by
  cases p <;> rfl

lemma parseInitialFields_ids (v : String) :
    (parseInitialFields v).map FieldEntry.id = List.range (parseInitialFields v).length := by
  cases hp : parseJsonStr v with
  | none => simp only [parseInitialFields, hp]; decide
  | some j =>
    cases he : jsObjectEntries j with
    | none => simp only [parseInitialFields, hp, he]; decide
    | some es =>
      simp only [parseInitialFields, hp, he]
      rw [fieldsOfEntries_id, fieldsOfEntries_length, List.range_eq_range']

lemma goodIds_init (v : String) :
    ((initState v).fields.map FieldEntry.id).Nodup
  ∧ ∀ f ∈ (initState v).fields, f.id < (initState v).nextId := by
  constructor
  · rw [show (initState v).fields = parseInitialFields v from rfl, parseInitialFields_ids]
    exact List.nodup_range _
  · intro f hf
    have h1 : f.id ∈ (parseInitialFields v).map FieldEntry.id :=
      List.mem_map_of_mem _ hf
    rw [parseInitialFields_ids] at h1
    exact List.mem_range.mp h1

lemma goodIds_step (s s' : EditorState) (h : Tr s s')
    (hn : (s.fields.map FieldEntry.id).Nodup ∧ ∀ f ∈ s.fields, f.id < s.nextId) :
    (s'.fields.map FieldEntry.id).Nodup ∧ ∀ f ∈ s'.fields, f.id < s'.nextId := by
  obtain ⟨hd, hb⟩ := hn
  cases h with
  | add =>
    have hmem : s.nextId ∉ s.fields.map FieldEntry.id := by
      intro hmem
      obtain ⟨f, hf, hid⟩ := List.mem_map.mp hmem
      have := hb f hf
      omega
    constructor
    · simp only [addField, updateParent_fields, List.map_append]
      simp [List.nodup_append, hd, hmem]
    · intro f hf
      simp only [addField, updateParent_fields, List.mem_append] at hf
      have hnext : (addField s).nextId = s.nextId + 1 := by
        simp [addField, updateParent_nextId]
      rw [hnext]
      cases hf with
      | inl hf => have := hb f hf; omega
      | inr hf =>
        simp at hf
        subst hf
        exact Nat.lt_succ_self s.nextId
  | remove i =>
    constructor
    · simp only [removeField, updateParent_fields]
      exact hd.sublist ((List.filter_sublist _).map _)
    · intro f hf
      simp only [removeField, updateParent_fields] at hf
      have hnext : (removeField i s).nextId = s.nextId := by
        simp [removeField, updateParent_nextId]
      rw [hnext]
      exact hb f (List.mem_of_mem_filter hf)
  | update i p v =>
    have hids : (updateField i p v s).fields.map FieldEntry.id
        = s.fields.map FieldEntry.id := by
      simp only [updateField, updateParent_fields, List.map_map]
      apply List.map_congr_left
      intro f _
      by_cases hfi : f.id = i <;> simp [hfi, setProp_id]
    constructor
    · rw [hids]; exact hd
    · intro f hf
      have hnext : (updateField i p v s).nextId = s.nextId := by
        simp [updateField, updateParent_nextId]
      rw [hnext]
      have h1 : f.id ∈ (updateField i p v s).fields.map FieldEntry.id :=
        List.mem_map_of_mem _ hf
      rw [hids] at h1
      obtain ⟨g, hg, hid⟩ := List.mem_map.mp h1
      have := hb g hg
      omega

lemma goodIds_reachable (v : String) (s : EditorState) (h : Reachable v s) :
    ((s.fields.map FieldEntry.id).Nodup ∧ ∀ f ∈ s.fields, f.id < s.nextId) := by
  induction h with
  | refl => exact goodIds_init v
  | tail _ hstep ih => exact goodIds_step _ _ hstep ih

/-- C10: in every reachable editor state the entry ids are pairwise
distinct (so an id-addressed remove or edit touches exactly one entry):
initialization assigns ids `0..n-1` and sets the counter to `n`, adding a
field appends the counter value (strictly above every existing id) and
increments the counter, and editing or removing never changes any id. -/
theorem c10_distinct_ids (v : String) (s : EditorState) (h : Reachable v s)
    (i : Nat) (p : FieldProp) (w : String) :
    ((s.fields.map FieldEntry.id).Nodup ∧ ∀ f ∈ s.fields, f.id < s.nextId)
  ∧ (initState v).fields.map FieldEntry.id = List.range (initState v).fields.length
  ∧ (initState v).nextId = (initState v).fields.length
  ∧ (addField s).fields.map FieldEntry.id = s.fields.map FieldEntry.id ++ [s.nextId]
  ∧ (addField s).nextId = s.nextId + 1
  ∧ (updateField i p w s).fields.map FieldEntry.id = s.fields.map FieldEntry.id
  ∧ ((removeField i s).fields.map FieldEntry.id).Sublist (s.fields.map FieldEntry.id)
  ∧ (i ∈ s.fields.map FieldEntry.id → (s.fields.map FieldEntry.id).count i = 1) := by
  refine ⟨goodIds_reachable v s h, parseInitialFields_ids v, rfl, ?_, ?_, ?_, ?_, ?_⟩
  · simp [addField, updateParent_fields]
  · simp [addField, updateParent_nextId]
  · simp only [updateField, updateParent_fields, List.map_map]
    apply List.map_congr_left
    intro f _
    by_cases hfi : f.id = i <;> simp [hfi, setProp_id]
  · simp only [removeField, updateParent_fields]
    exact (List.filter_sublist _).map _
  · intro hmem
    exact List.count_eq_one_of_mem (goodIds_reachable v s h).1 hmem

/-- C10 witness: the freshly mounted editor on an unparsable starting
text. -/
theorem c10_distinct_ids_witness :
    (((initState "x").fields.map FieldEntry.id).Nodup
       ∧ ∀ f ∈ (initState "x").fields, f.id < (initState "x").nextId)
  ∧ (initState "x").fields.map FieldEntry.id
      = List.range (initState "x").fields.length
  ∧ (initState "x").nextId = (initState "x").fields.length
  ∧ (addField (initState "x")).fields.map FieldEntry.id
      = (initState "x").fields.map FieldEntry.id ++ [(initState "x").nextId]
  ∧ (addField (initState "x")).nextId = (initState "x").nextId + 1
  ∧ (updateField 0 FieldProp.key "k" (initState "x")).fields.map FieldEntry.id
      = (initState "x").fields.map FieldEntry.id
  ∧ ((removeField 0 (initState "x")).fields.map FieldEntry.id).Sublist
      ((initState "x").fields.map FieldEntry.id)
  ∧ (0 ∈ (initState "x").fields.map FieldEntry.id →
      ((initState "x").fields.map FieldEntry.id).count 0 = 1) :=
  c10_distinct_ids "x" (initState "x") Relation.ReflTransGen.refl 0 FieldProp.key "k"
